import Mathlib

/-!
Verification of the Kraken step-definition library (src/steps/more.ts).

The file embeds the source shallowly:

* Strings are Lean strings; the JavaScript string operations used by the
  source (split on a single space, replace of the first occurrence of a
  substring, includes) are re-implemented character by character so that
  every definition is executable and kernel-reducible.
* A DOM ancestor chain is a list of nodes (tag name plus optional class
  attribute), ordered from the immediate parent upward, exactly the
  sequence of elements the source visits through repeated parent lookups.
* Step handlers are state-passing functions: the state carries a poll
  tick counter and the chronological trace of driver interactions, and
  a handler returns an Except value (thrown errors) together with the
  final state.  The browser driver is an explicit environment of response
  functions; time-varying observables (URL, text, attributes) are indexed
  by the tick, which advances at every driver read.
-/

namespace Kraken

/-- JavaScript split on a single space character (classAttr.split of a
one-space separator): splits at every space, keeping empty pieces. -/
def splitSpAux : List Char → List Char → List String
  | [], acc => [String.mk acc.reverse]
  | c :: cs, acc =>
    if c = ' ' then String.mk acc.reverse :: splitSpAux cs []
    else splitSpAux cs (c :: acc)

/-- Tokenisation used on the class attribute in the closest function. -/
def splitSp (s : String) : List String := splitSpAux s.data []

/-- Remove the first occurrence of the dot character from a character
list; identity when no dot occurs. -/
def removeFirstDotAux : List Char → List Char
  | [] => []
  | c :: cs => if c = '.' then cs else c :: removeFirstDotAux cs

/-- JavaScript selector.replace of a one-dot pattern with the empty
string: removes the first occurrence of the dot, wherever it is. -/
def removeFirstDot (s : String) : String := String.mk (removeFirstDotAux s.data)

/-- List prefix test on characters, written out for kernel reduction. -/
def isPrefixL : List Char → List Char → Bool
  | [], _ => true
  | _ :: _, [] => false
  | a :: as, b :: bs => a = b && isPrefixL as bs

/-- List infix test on characters. -/
def isSubL (needle : List Char) : List Char → Bool
  | [] => isPrefixL needle []
  | c :: cs => isPrefixL needle (c :: cs) || isSubL needle cs

/-- JavaScript String.includes: substring containment. -/
def containsStr (s sub : String) : Bool := isSubL sub.data s.data

/-- One DOM element as seen by the closest function: a driver reference,
its tag name and its class attribute (getAttribute may return null). -/
structure Node where
  ref : Nat
  tagName : String
  classAttr : Option String
deriving DecidableEq, Repr

/-- The class test performed on one visited ancestor (source line 19):
classAttr is truthy (non-null, non-empty) and its space-split token list
contains the selector with the first dot removed. -/
def matchesClass (n : Node) (sel : String) : Bool :=
  match n.classAttr with
  | none => false
  | some ca => if ca = "" then false else (splitSp ca).contains (removeFirstDot sel)

/-- The closest function (source lines 15-25), expressed over the chain
of ancestors that the repeated parent lookups visit, immediate parent
first.  An empty chain models a parent lookup that yields no node; a
node tagged html stops the walk before its class is ever inspected. -/
def closest : List Node → String → Option Node
  | [], _ => none
  | p :: rest, sel =>
    if p.tagName = "html" then none
    else if matchesClass p sel then some p
    else closest rest sel

/-- The find function (source lines 34-40): head of the list of matching
children, null when there is none.  Stated over the already-queried
child list. -/
def find (children : List Nat) : Option Nat :=
  match children with
  | c :: _ => some c
  | [] => none

lemma closest_eq_find_first (anc : List Node) (sel : String) :
    closest anc sel
      = (anc.takeWhile (fun n => !(n.tagName == "html"))).find?
          (fun n => matchesClass n sel) := by
  induction anc with
  | nil => rfl
  | cons p rest ih =>
    by_cases hp : p.tagName = "html"
    · simp [closest, hp, List.takeWhile]
    · have hb : (p.tagName == "html") = false := beq_eq_false_iff_ne.mpr hp
      by_cases hm : matchesClass p sel
      · simp [closest, hp, hm, List.takeWhile, hb, List.find?]
      · simp [closest, hp, hm, List.takeWhile, hb, List.find?, ih]

lemma isPrefixL_self_append (x b : List Char) : isPrefixL x (x ++ b) = true := by
  induction x with
  | nil => rfl
  | cons c cs ih => simp [isPrefixL, ih]

lemma isSubL_of_isPrefixL {x l : List Char} (h : isPrefixL x l = true) :
    isSubL x l = true := by
  cases l with
  | nil =>
    cases x with
    | nil => rfl
    | cons c cs => simp [isPrefixL] at h
  | cons c cs => simp [isSubL, h]

lemma isSubL_append_left {x l : List Char} (a : List Char) (h : isSubL x l = true) :
    isSubL x (a ++ l) = true := by
  induction a with
  | nil => simpa using h
  | cons c cs ih => simp [isSubL, ih]

lemma isSubL_self_append (x b : List Char) : isSubL x (x ++ b) = true :=
  isSubL_of_isPrefixL (isPrefixL_self_append x b)

lemma removeFirstDotAux_append_dot (u t : List Char) (hu : '.' ∉ u) :
    removeFirstDotAux (u ++ '.' :: t) = u ++ t := by
  induction u with
  | nil => simp [removeFirstDotAux]
  | cons c cs ih =>
    have hc : c ≠ '.' := fun h => hu (h ▸ List.mem_cons_self c cs)
    have hcs : '.' ∉ cs := fun h => hu (List.mem_cons_of_mem c h)
    simp [removeFirstDotAux, hc, ih hcs]

lemma find?_of_filter_singleton {l : List Node} {p : Node → Bool} {n : Node}
    (h : l.filter p = [n]) : l.find? p = some n := by
  induction l with
  | nil => simp at h
  | cons a as ih =>
    by_cases ha : p a
    · rw [List.filter_cons_of_pos ha] at h
      rcases List.cons_eq_cons.mp h with ⟨h1, _⟩
      subst h1
      simp [List.find?, ha]
    · have ha2 : p a = false := by simpa using ha
      rw [List.filter_cons_of_neg (by simpa using ha)] at h
      simp [List.find?, ha2, ih h]

lemma takeWhile_all {p : Node → Bool} (l : List Node) (h : ∀ n ∈ l, p n = true) :
    l.takeWhile p = l := by
  induction l with
  | nil => rfl
  | cons a as ih =>
    rw [List.takeWhile_cons, h a (List.mem_cons_self a as),
      ih fun n hn => h n (List.mem_cons_of_mem a hn)]
    simp

lemma takeWhile_append_stop {p : Node → Bool} (pre : List Node) (x : Node)
    (post : List Node) (hpre : ∀ n ∈ pre, p n = true) (hx : p x = false) :
    (pre ++ x :: post).takeWhile p = pre := by
  induction pre with
  | nil => simp [List.takeWhile_cons, hx]
  | cons a as ih =>
    rw [List.cons_append, List.takeWhile_cons, hpre a (List.mem_cons_self a as),
      ih fun n hn => hpre n (List.mem_cons_of_mem a hn)]
    simp

/-- Claim C1 (corrected).  Walking from the immediate parent upward,
closest returns the first node strictly before the first html-tagged
node that passes the class test: with exactly one matching node below
the root it returns that node (first conjunct), with none it returns
null (second conjunct), and in general the nearest match wins (third
conjunct).  The original claim fails only in that it lets the document
root itself be the matching node: closest tests the tag before the
class, so an html node is never returned (see the counterexample). -/
theorem C1_closest_unique_match (anc : List Node) (sel : String) :
    (∀ n, (anc.takeWhile (fun m => !(m.tagName == "html"))).filter
        (fun m => matchesClass m sel) = [n] → closest anc sel = some n)
    ∧ ((∀ n ∈ anc.takeWhile (fun m => !(m.tagName == "html")),
        matchesClass n sel = false) → closest anc sel = none)
    ∧ closest anc sel
      = (anc.takeWhile (fun m => !(m.tagName == "html"))).find?
          (fun m => matchesClass m sel) := by
  refine ⟨fun n h => ?_, fun h => ?_, closest_eq_find_first anc sel⟩
  · rw [closest_eq_find_first anc sel]
    exact find?_of_filter_singleton h
  · rw [closest_eq_find_first anc sel]
    exact List.find?_eq_none.mpr fun n hn => by simp [h n hn]

/-- Witness for C1: a chain with exactly one matching node below the
root resolves to that node; a chain with no matching node resolves to
null. -/
theorem C1_closest_unique_match_witness :
    closest [Node.mk 0 "div" (some "nav"), Node.mk 1 "section" (some "card wide"),
      Node.mk 2 "html" none] ".card" = some (Node.mk 1 "section" (some "card wide"))
    ∧ closest [Node.mk 0 "div" (some "nav"), Node.mk 2 "html" none] ".card" = none :=
  ⟨(C1_closest_unique_match [Node.mk 0 "div" (some "nav"),
      Node.mk 1 "section" (some "card wide"), Node.mk 2 "html" none] ".card").1
      (Node.mk 1 "section" (some "card wide")) (by decide),
    (C1_closest_unique_match [Node.mk 0 "div" (some "nav"),
      Node.mk 2 "html" none] ".card").2.1 (by decide)⟩

/-- Counterexample to C1 as stated: in the chain consisting only of the
document root carrying class card, exactly one chain node has card in
its class token list, yet closest returns null instead of that node —
the root is rejected by its tag name before its class is inspected. -/
theorem C1_counterexample :
    ([Node.mk 0 "html" (some "card")].filter
      (fun n => matchesClass n ".card")).length = 1
    ∧ closest [Node.mk 0 "html" (some "card")] ".card" = none := by decide

/-- Claim C9 (confirmed).  closest is a total function (termination is
inherent in the embedding); nodes past the first html-tagged ancestor
never influence the result (first conjunct); reaching the root with no
match below it yields null (second conjunct); a detached chain that
ends without ever reaching an html node also yields null (third
conjunct). -/
theorem C9_closest_stops_at_root (pre post : List Node) (root : Node) (sel : String)
    (hroot : root.tagName = "html")
    (hpre : ∀ n ∈ pre, n.tagName ≠ "html") :
    closest (pre ++ root :: post) sel = closest (pre ++ [root]) sel
    ∧ ((∀ n ∈ pre, matchesClass n sel = false) →
        closest (pre ++ root :: post) sel = none)
    ∧ ((∀ n ∈ pre, matchesClass n sel = false) → closest pre sel = none) := by
  have hp : ∀ n ∈ pre, (fun m => !(m.tagName == "html")) n = true := by
    intro n hn
    simpa using hpre n hn
  have hr : (fun m => !(m.tagName == "html")) root = false := by simp [hroot]
  have h1 : (pre ++ root :: post).takeWhile (fun m => !(m.tagName == "html")) = pre :=
    takeWhile_append_stop pre root post hp hr
  have h2 : (pre ++ [root]).takeWhile (fun m => !(m.tagName == "html")) = pre :=
    takeWhile_append_stop pre root [] hp hr
  refine ⟨?_, fun h => ?_, fun h => ?_⟩
  · rw [closest_eq_find_first, closest_eq_find_first, h1, h2]
  · rw [closest_eq_find_first, h1]
    exact List.find?_eq_none.mpr fun n hn => by simp [h n hn]
  · rw [closest_eq_find_first, takeWhile_all pre hp]
    exact List.find?_eq_none.mpr fun n hn => by simp [h n hn]

/-- Witness for C9: with one non-matching ancestor before the root, the
walk ignores a matching node placed after the root and returns null,
already at the root; the detached one-node chain also returns null. -/
theorem C9_closest_stops_at_root_witness :
    closest [Node.mk 0 "div" (some "nav"), Node.mk 1 "html" none,
      Node.mk 2 "div" (some "card")] ".card" = none
    ∧ closest [Node.mk 0 "div" (some "nav")] ".card" = none := by
  have h := C9_closest_stops_at_root [Node.mk 0 "div" (some "nav")]
    [Node.mk 2 "div" (some "card")] (Node.mk 1 "html" none) ".card" rfl
    (by decide)
  exact ⟨h.2.1 (by decide), h.2.2 (by decide)⟩

/-- The class name the spec says is compared: the selector with a
leading dot stripped and the rest of the selector unchanged.  This
definition follows the words of the spec, to be compared with
removeFirstDot, which is the embedding of the source. -/
def specStripLeadingDot (s : String) : String :=
  match s.data with
  | '.' :: rest => String.mk rest
  | _ => s

/-- Claim C5 (corrected).  The compared class name removes the first
dot of the selector wherever that dot occurs: for a selector that is a
dot-free prefix u, then a dot, then a remainder t, the compared name is
u followed by t (first conjunct), and a leading-dot selector is
compared by its remainder unchanged, as the spec says (second
conjunct).  The original claim fails for a selector whose first dot is
not leading: that dot is removed too, not preserved (counterexample). -/
theorem C5_compared_class_name (r : Nat) (tag t u ca : String)
    (hu : '.' ∉ u.data) :
    removeFirstDot (u ++ "." ++ t) = u ++ t
    ∧ matchesClass (Node.mk r tag (some ca)) ("." ++ t)
      = (if ca = "" then false else (splitSp ca).contains t) := by
  have key : ∀ w : String, '.' ∉ w.data → removeFirstDot (w ++ "." ++ t) = w ++ t := by
    intro w hw
    apply String.ext
    show (removeFirstDotAux (w ++ "." ++ t).data) = (w ++ t).data
    rw [String.data_append, String.data_append, String.data_append]
    have hd : ("." : String).data = ['.'] := by decide
    rw [hd, List.append_assoc]
    exact removeFirstDotAux_append_dot w.data t.data hw
  refine ⟨key u hu, ?_⟩
  have h0 : removeFirstDot ("." ++ t) = t := by
    have := key "" (by simp)
    simpa using this
  simp only [matchesClass]
  rw [h0]

/-- Witness for C5: the selector x.card is compared as xcard, and the
leading-dot selector .card matches a node of class card. -/
theorem C5_compared_class_name_witness :
    removeFirstDot ("x" ++ "." ++ "card") = "x" ++ "card"
    ∧ matchesClass (Node.mk 0 "div" (some "card")) ("." ++ "card")
      = (if ("card" : String) = "" then false else (splitSp "card").contains "card") :=
  C5_compared_class_name 0 "div" "card" "x" "card" (by decide)

/-- Counterexample to C5 as stated: the selector a.b has no leading
dot, so per the claim the compared name would be a.b itself, yet the
code compares ab — a node whose class token list is exactly the token
a.b therefore does not match the selector a.b. -/
theorem C5_counterexample :
    removeFirstDot "a.b" = "ab"
    ∧ specStripLeadingDot "a.b" = "a.b"
    ∧ matchesClass (Node.mk 0 "div" (some "a.b")) "a.b" = false
    ∧ closest [Node.mk 0 "div" (some "a.b"), Node.mk 1 "html" none] "a.b" = none := by
  decide

/-- One driver interaction, recorded in chronological order. -/
inductive Event where
  | queried (sel : String)
  | childQueried (parent : Nat) (sel : String)
  | childQueriedAll (parent : Nat) (sel : String)
  | waitedDisplayed (e : Nat) (timeoutMs : Nat)
  | waitedClickable (e : Nat) (timeoutMs : Nat)
  | clicked (e : Nat)
  | sentKeys (k : String)
  | sentChord (ks : List String)
  | valueSet (e : Nat) (text : String)
  | readText (e : Nat)
  | readAttr (e : Nat) (name : String)
  | readUrl
  | madeDir (path : String)
  | savedScreenshot (path : String)
deriving DecidableEq, Repr

/-- How a step aborts: a thrown Error (press-key), an assertion failure
(assert.ok and assert.strictEqual), a driver timeout (waitUntil,
waitForDisplayed, waitForClickable), or the runtime type error raised
by calling a string method on a null value. -/
inductive StepError where
  | jsError (msg : String)
  | assertionFail (msg : String)
  | timeoutErr (msg : String)
  | typeError
deriving DecidableEq, Repr

deriving instance DecidableEq for Except

/-- Execution state of one step: the poll tick (advanced by every
driver read of a time-varying observable) and the interaction trace. -/
structure StepState where
  tick : Nat
  trace : List Event
deriving DecidableEq, Repr

/-- A step computation: state in, thrown error or value out, plus the
state as left behind (the trace survives an abort). -/
def StepM (α : Type) : Type := StepState → Except StepError α × StepState

instance : Monad StepM where
  pure a := fun s => (.ok a, s)
  bind m f := fun s =>
    match m s with
    | (.ok a, s1) => f a s1
    | (.error e, s1) => (.error e, s1)

/-- The browser driver and ambient context, as an explicit environment.
Element handles are numbers; observables read during polling depend on
the tick at which they are read. -/
structure Env where
  queryEl : String → Nat
  childEl : Nat → String → Nat
  childEls : Nat → String → List Nat
  parentChain : Nat → List Node
  displayed : Nat → Bool
  clickable : Nat → Bool
  textAt : Nat → Nat → String
  attrAt : Nat → String → Nat → Option String
  urlAt : Nat → String
  pollAttempts : Nat
  versionVar : Option String
  featureLocation : String
  dirExists : String → Bool

def emit (ev : Event) : StepM Unit :=
  fun s => (.ok (), { s with trace := s.trace ++ [ev] })

def nextTick : StepM Nat :=
  fun s => (.ok s.tick, { s with tick := s.tick + 1 })

def throwErr {α : Type} (e : StepError) : StepM α :=
  fun s => (.error e, s)

/-- driver.$ or element-independent lookup of a selector. -/
def dollar (env : Env) (sel : String) : StepM Nat := do
  emit (.queried sel)
  pure (env.queryEl sel)

/-- element.$ scoped under a parent element. -/
def childDollar (env : Env) (parent : Nat) (sel : String) : StepM Nat := do
  emit (.childQueried parent sel)
  pure (env.childEl parent sel)

/-- element.$$ scoped under a parent element. -/
def childDollarAll (env : Env) (parent : Nat) (sel : String) : StepM (List Nat) := do
  emit (.childQueriedAll parent sel)
  pure (env.childEls parent sel)

/-- element.waitForDisplayed: succeeds exactly when the driver reports
the element displayed, otherwise the driver raises a timeout. -/
def waitForDisplayed (env : Env) (e : Nat) (timeoutMs : Nat) : StepM Unit :=
  if env.displayed e then emit (.waitedDisplayed e timeoutMs)
  else throwErr (.timeoutErr "element not displayed within timeout")

/-- element.waitForClickable: analogous to the displayed wait. -/
def waitForClickable (env : Env) (e : Nat) (timeoutMs : Nat) : StepM Unit :=
  if env.clickable e then emit (.waitedClickable e timeoutMs)
  else throwErr (.timeoutErr "element not clickable within timeout")

def click (e : Nat) : StepM Unit := emit (.clicked e)

def keysSend (k : String) : StepM Unit := emit (.sentKeys k)

def keysChord (ks : List String) : StepM Unit := emit (.sentChord ks)

def setValue (e : Nat) (text : String) : StepM Unit := emit (.valueSet e text)

def getText (env : Env) (e : Nat) : StepM String := do
  let t ← nextTick
  emit (.readText e)
  pure (env.textAt e t)

def getAttribute (env : Env) (e : Nat) (name : String) : StepM (Option String) := do
  let t ← nextTick
  emit (.readAttr e name)
  pure (env.attrAt e name t)

def getUrl (env : Env) : StepM String := do
  let t ← nextTick
  emit (.readUrl)
  pure (env.urlAt t)

/-- assert.ok on a boolean condition. -/
def assertOk (cond : Bool) (msg : String) : StepM Unit :=
  if cond then pure () else throwErr (.assertionFail msg)

/-- assert.ok applied to a possibly-null element, returning the element
for the code that follows the assertion. -/
def assertSome {α : Type} (x : Option α) (msg : String) : StepM α :=
  match x with
  | some v => pure v
  | none => throwErr (.assertionFail msg)

/-- driver.waitUntil: retry the predicate until it holds, for an
implementation-defined number of attempts within the budget; raise the
configured timeout message when no attempt succeeds. -/
def waitUntilAux (pred : StepM Bool) (msg : String) : Nat → StepM Unit
  | 0 => throwErr (.timeoutErr msg)
  | n + 1 => do
    let b ← pred
    if b then pure () else waitUntilAux pred msg n

def waitUntil (env : Env) (pred : StepM Bool) (timeoutMs : Nat) (msg : String) :
    StepM Unit :=
  waitUntilAux pred msg env.pollAttempts

def runStep (m : StepM Unit) : Except StepError Unit × StepState := m ⟨0, []⟩

def stepResult (m : StepM Unit) : Except StepError Unit := (m ⟨0, []⟩).1

def stepTrace (m : StepM Unit) : List Event := (m ⟨0, []⟩).2.trace

/-- Wrap a value in double quotes, as the template literals do. -/
def quoted (s : String) : String := "\"" ++ s ++ "\""

def unsupportedKeyMsg (keyName : String) : String :=
  "Tecla " ++ quoted keyName ++ " no está soportada."

def urlTimeoutMsg (expectedUrl : String) : String :=
  "La URL no cambió a " ++ quoted expectedUrl ++ " después de 10 segundos"

def strictEqualMsg (actual expected : String) : String :=
  "Expected values to be strictly equal: " ++ quoted actual ++ " !== "
    ++ quoted expected

def ancestorNotFoundMsg (parentSelector fromSelector : String) : String :=
  "No se encontró el padre " ++ quoted parentSelector ++ " desde "
    ++ quoted fromSelector

def scopedNotFoundMsg (selector parentSelector : String) : String :=
  "No se encontró el elemento " ++ quoted selector ++ " dentro del padre "
    ++ quoted parentSelector

def textTimeoutMsg (expectedText elementSelector : String) : String :=
  "El texto " ++ quoted expectedText ++ " no apareció dentro del elemento "
    ++ quoted elementSelector

def textAssertMsg (expectedText : String) : String :=
  "No se encontró el texto " ++ quoted expectedText ++ " en el elemento"

def attrTimeoutMsg (expectedValue attributeName selector : String) : String :=
  "El valor " ++ quoted expectedValue ++ " no apareció en el atributo "
    ++ quoted attributeName ++ " del elemento " ++ quoted selector

def attrAssertMsg (attributeName expectedValue finalAttr : String) : String :=
  "Se esperaba que el atributo " ++ quoted attributeName ++ " contuviera "
    ++ quoted expectedValue ++ " pero fue " ++ quoted finalAttr

/-- Key map of the press-key step (source lines 54-61), an object
lookup yielding undefined for any other name. -/
def keyMap (k : String) : Option String :=
  if k = "Enter" then some "\uE007"
  else if k = "Esc" then some "\uE00C"
  else if k = "Escape" then some "\uE00C"
  else if k = "Tab" then some "\uE004"
  else if k = "ArrowDown" then some "\uE015"
  else if k = "ArrowUp" then some "\uE013"
  else none

/-- Step: I press key (source lines 51-70). -/
def pressKey (env : Env) (keyName : String) : StepM Unit :=
  match keyMap keyName with
  | none => throwErr (.jsError (unsupportedKeyMsg keyName))
  | some keyCode => keysSend keyCode

/-- Version string selection (source line 83): the VERSION environment
variable when set and truthy, otherwise default. -/
def versionOf : Option String → String
  | none => "default"
  | some v => if v = "" then "default" else v

/-- path.basename: the part after the last slash. -/
def basenameOf (s : String) : String :=
  String.mk (s.data.reverse.takeWhile (fun c => !(c == '/'))).reverse

/-- split on dot, first piece (source line 84): the basename truncated
at its first dot. -/
def beforeFirstDot (s : String) : String :=
  String.mk (s.data.takeWhile (fun c => !(c == '.')))

/-- path.dirname: the part before the last slash, or dot when there is
no slash. -/
def dirnameOf (s : String) : String :=
  if s.data.contains '/' then
    String.mk (s.data.reverse.dropWhile (fun c => !(c == '/'))).reverse.dropLast
  else "."

/-- The screenshot file path (source lines 83-85) as a pure function of
the VERSION variable and the scenario source-file location. -/
def screenshotPath (versionVar : Option String) (featureLocation : String) : String :=
  "screenshots/" ++ versionOf versionVar ++ "/"
    ++ beforeFirstDot (basenameOf featureLocation) ++ ".png"

/-- Step: I take a screenshot (source lines 80-96). -/
def takeScreenshot (env : Env) : StepM Unit := do
  let nombreArchivo := screenshotPath env.versionVar env.featureLocation
  let dirPath := dirnameOf nombreArchivo
  if env.dirExists dirPath then pure () else emit (.madeDir dirPath)
  emit (.savedScreenshot nombreArchivo)

/-- Step: I should be on the page (source lines 105-119). -/
def shouldBeOnPage (env : Env) (expectedUrl : String) : StepM Unit := do
  waitUntil env
    (do
      let currentUrl ← getUrl env
      pure (currentUrl == expectedUrl))
    10000 (urlTimeoutMsg expectedUrl)
  let finalUrl ← getUrl env
  assertOk (finalUrl == expectedUrl) (strictEqualMsg finalUrl expectedUrl)

/-- Step: I click element (source lines 127-132). -/
def clickElement (env : Env) (selector : String) : StepM Unit := do
  let element ← dollar env selector
  waitForDisplayed env element 5000
  waitForClickable env element 5000
  click element

/-- Step: I click element in closest parent (source lines 141-149). -/
def clickElementInClosestParent (env : Env) (selector parentSelector : String) :
    StepM Unit := do
  let baseElement ← dollar env selector
  let parentElement ← assertSome (closest (env.parentChain baseElement) parentSelector)
    (ancestorNotFoundMsg parentSelector selector)
  let element ← childDollar env parentElement.ref selector
  waitForDisplayed env element 5000
  waitForClickable env element 5000
  click element

/-- Step: I click element in closest parent with child (source lines
158-171). -/
def clickElementInClosestParentWithChild (env : Env)
    (selector parentSelector childSelector : String) : StepM Unit := do
  let childElement ← dollar env childSelector
  waitForDisplayed env childElement 10000
  let parentElement ← assertSome (closest (env.parentChain childElement) parentSelector)
    (ancestorNotFoundMsg parentSelector childSelector)
  let children ← childDollarAll env parentElement.ref selector
  let element ← assertSome (find children) (scopedNotFoundMsg selector parentSelector)
  waitForDisplayed env element 5000
  waitForClickable env element 5000
  click element

/-- Step: I clear element (source lines 179-185). -/
def clearElement (env : Env) (selector : String) : StepM Unit := do
  let element ← dollar env selector
  waitForDisplayed env element 5000
  click element
  keysChord ["Control", "a"]
  keysSend "Backspace"

/-- Step: I clear element in closest parent (source lines 192-202). -/
def clearElementInClosestParent (env : Env) (selector parentSelector : String) :
    StepM Unit := do
  let baseElement ← dollar env selector
  let parentElement ← assertSome (closest (env.parentChain baseElement) parentSelector)
    (ancestorNotFoundMsg parentSelector selector)
  let element ← childDollar env parentElement.ref selector
  waitForDisplayed env element 5000
  click element
  keysChord ["Control", "a"]
  keysSend "Backspace"

/-- Step: I clear element in closest parent with child (source lines
209-223). -/
def clearElementInClosestParentWithChild (env : Env)
    (selector parentSelector childSelector : String) : StepM Unit := do
  let childElement ← dollar env childSelector
  waitForDisplayed env childElement 10000
  let parentElement ← assertSome (closest (env.parentChain childElement) parentSelector)
    (ancestorNotFoundMsg parentSelector childSelector)
  let children ← childDollarAll env parentElement.ref selector
  let element ← assertSome (find children) (scopedNotFoundMsg selector parentSelector)
  waitForDisplayed env element 5000
  click element
  keysChord ["Control", "a"]
  keysSend "Backspace"

/-- Step: I enter text into element (source lines 232-239). -/
def enterIntoElement (env : Env) (text childSelector : String) : StepM Unit := do
  let inputElement ← dollar env childSelector
  waitForDisplayed env inputElement 5000
  click inputElement
  keysChord ["Control", "a"]
  keysSend "Backspace"
  keysSend text

/-- Step: I enter text into element in closest parent (source lines
246-257). -/
def enterIntoElementInClosestParent (env : Env)
    (text childSelector parentSelector : String) : StepM Unit := do
  let baseElement ← dollar env childSelector
  let parentElement ← assertSome (closest (env.parentChain baseElement) parentSelector)
    (ancestorNotFoundMsg parentSelector childSelector)
  let inputElement ← childDollar env parentElement.ref childSelector
  waitForDisplayed env inputElement 5000
  click inputElement
  keysChord ["Control", "a"]
  keysSend "Backspace"
  keysSend text

/-- Step: I enter text into element in closest parent with child
(source lines 265-276).  Note: the only displayed wait is on the
element located by baseSelector; the input element receives setValue
directly. -/
def enterIntoElementInClosestParentWithChild (env : Env)
    (text childSelector parentSelector baseSelector : String) : StepM Unit := do
  let childElement ← dollar env baseSelector
  waitForDisplayed env childElement 10000
  let parentElement ← assertSome (closest (env.parentChain childElement) parentSelector)
    (ancestorNotFoundMsg parentSelector baseSelector)
  let children ← childDollarAll env parentElement.ref childSelector
  let inputElement ← assertSome (find children)
    (scopedNotFoundMsg childSelector parentSelector)
  setValue inputElement text

/-- Step: I should see text in element (source lines 284-298). -/
def shouldSeeInElement (env : Env) (expectedText elementSelector : String) :
    StepM Unit := do
  let targetElement ← dollar env elementSelector
  waitUntil env
    (do
      let text ← getText env targetElement
      pure (containsStr text expectedText))
    10000 (textTimeoutMsg expectedText elementSelector)
  let finalText ← getText env targetElement
  assertOk (containsStr finalText expectedText) (textAssertMsg expectedText)

/-- Step: I should see text in element in closest parent (source lines
305-323). -/
def shouldSeeInElementInClosestParent (env : Env)
    (expectedText elementSelector parentSelector : String) : StepM Unit := do
  let baseElement ← dollar env elementSelector
  let parentElement ← assertSome (closest (env.parentChain baseElement) parentSelector)
    (ancestorNotFoundMsg parentSelector elementSelector)
  let targetElement ← childDollar env parentElement.ref elementSelector
  waitUntil env
    (do
      let text ← getText env targetElement
      pure (containsStr text expectedText))
    10000 (textTimeoutMsg expectedText elementSelector)
  let finalText ← getText env targetElement
  assertOk (containsStr finalText expectedText) (textAssertMsg expectedText)

/-- Step: I should see text in element in closest parent with child
(source lines 330-351). -/
def shouldSeeInElementInClosestParentWithChild (env : Env)
    (expectedText elementSelector parentSelector childSelector : String) :
    StepM Unit := do
  let childElement ← dollar env childSelector
  waitForDisplayed env childElement 10000
  let parentElement ← assertSome (closest (env.parentChain childElement) parentSelector)
    (ancestorNotFoundMsg parentSelector childSelector)
  let children ← childDollarAll env parentElement.ref elementSelector
  let targetElement ← assertSome (find children)
    (scopedNotFoundMsg elementSelector parentSelector)
  waitUntil env
    (do
      let text ← getText env targetElement
      pure (containsStr text expectedText))
    10000 (textTimeoutMsg expectedText elementSelector)
  let finalText ← getText env targetElement
  assertOk (containsStr finalText expectedText) (textAssertMsg expectedText)

/-- The polling predicate of the attribute step (source line 361): the
attribute is truthy and contains the expected value. -/
def attrTruthyContains (attr : Option String) (expectedValue : String) : Bool :=
  match attr with
  | none => false
  | some a => if a = "" then false else containsStr a expectedValue

/-- Step: I should see value in attribute of element (source lines
356-370).  The final re-read calls includes on the raw attribute with
no null guard, so a null final attribute raises a type error. -/
def shouldSeeInAttributeOfElement (env : Env)
    (expectedValue attributeName selector : String) : StepM Unit := do
  let element ← dollar env selector
  waitUntil env
    (do
      let attr ← getAttribute env element attributeName
      pure (attrTruthyContains attr expectedValue))
    10000 (attrTimeoutMsg expectedValue attributeName selector)
  let finalAttr ← getAttribute env element attributeName
  match finalAttr with
  | none => throwErr .typeError
  | some a => assertOk (containsStr a expectedValue) (attrAssertMsg attributeName expectedValue a)

lemma pure_run {α : Type} (a : α) (s : StepState) : (pure a : StepM α) s = (.ok a, s) := rfl

lemma bind_run {α β : Type} (m : StepM α) (f : α → StepM β) (s : StepState) :
    (m >>= f) s
      = match m s with
        | (.ok a, s1) => f a s1
        | (.error e, s1) => (.error e, s1) := rfl

lemma isPrefixL_append_right {x l : List Char} (b : List Char)
    (h : isPrefixL x l = true) : isPrefixL x (l ++ b) = true := by
  induction x generalizing l with
  | nil => rfl
  | cons c cs ih =>
    cases l with
    | nil => simp [isPrefixL] at h
    | cons d ds =>
      simp only [isPrefixL, Bool.and_eq_true] at h
      simp [isPrefixL, h.1, ih h.2]

lemma isSubL_append_right {x l : List Char} (b : List Char)
    (h : isSubL x l = true) : isSubL x (l ++ b) = true := by
  induction l with
  | nil =>
    cases x with
    | nil =>
      cases b with
      | nil => rfl
      | cons c cs => simp [isSubL, isPrefixL]
    | cons c cs => simp [isSubL, isPrefixL] at h
  | cons c cs ih =>
    simp only [isSubL, Bool.or_eq_true] at h
    simp only [List.cons_append, isSubL, Bool.or_eq_true]
    rcases h with h | h
    · exact Or.inl (isPrefixL_append_right b h)
    · exact Or.inr (ih h)

lemma containsStr_mid (a b x : String) : containsStr (a ++ x ++ b) x = true := by
  unfold containsStr
  rw [String.data_append, String.data_append, List.append_assoc]
  exact isSubL_append_left _ (isSubL_self_append _ _)

lemma containsStr_left {a x : String} (b : String) (h : containsStr a x = true) :
    containsStr (a ++ b) x = true := by
  unfold containsStr at h ⊢
  rw [String.data_append]
  exact isSubL_append_right _ h

lemma containsStr_quoted (a b x : String) : containsStr (a ++ quoted x ++ b) x = true := by
  have h : a ++ quoted x ++ b = (a ++ "\"") ++ x ++ ("\"" ++ b) := by
    apply String.ext
    simp [quoted, String.data_append, List.append_assoc]
  rw [h]
  exact containsStr_mid (a ++ "\"") ("\"" ++ b) x

lemma containsStr_quoted_end (a x : String) : containsStr (a ++ quoted x) x = true := by
  have h : a ++ quoted x = (a ++ "\"") ++ x ++ "\"" := by
    apply String.ext
    simp [quoted, String.data_append, List.append_assoc]
  rw [h]
  exact containsStr_mid (a ++ "\"") "\"" x

/-- A fixed environment used to instantiate theorems with hypotheses:
everything is displayed and clickable, chains are empty, reads are
constant. -/
def sampleEnv : Env where
  queryEl := fun _ => 0
  childEl := fun _ _ => 0
  childEls := fun _ _ => []
  parentChain := fun _ => []
  displayed := fun _ => true
  clickable := fun _ => true
  textAt := fun _ _ => ""
  attrAt := fun _ _ _ => none
  urlAt := fun _ => ""
  pollAttempts := 2
  versionVar := none
  featureLocation := "features/login.feature"
  dirExists := fun _ => true

/-- Claim C7 (confirmed).  The key map supports exactly Enter, Esc,
Escape, Tab, ArrowDown and ArrowUp, each bound to its fixed WebDriver
control code with Esc and Escape sharing one code; any other name makes
the step throw the unsupported-key error — whose message names the
key — before any driver interaction, leaving an empty trace. -/
theorem C7_pressKey_supported_keys (env : Env) (k : String) :
    ((keyMap k).isSome ↔ k ∈ ["Enter", "Esc", "Escape", "Tab", "ArrowDown", "ArrowUp"])
    ∧ keyMap "Esc" = keyMap "Escape"
    ∧ keyMap "Enter" = some ""
    ∧ keyMap "Esc" = some ""
    ∧ keyMap "Tab" = some ""
    ∧ keyMap "ArrowDown" = some ""
    ∧ keyMap "ArrowUp" = some ""
    ∧ containsStr (unsupportedKeyMsg k) k = true
    ∧ (keyMap k = none →
        runStep (pressKey env k)
          = (.error (.jsError (unsupportedKeyMsg k)), ⟨0, []⟩)) := by
  refine ⟨?_, by decide, by decide, by decide, by decide, by decide, by decide,
    ?_, fun h => ?_⟩
  · unfold keyMap
    split_ifs with h1 h2 h3 h4 h5 h6 <;> simp_all
  · exact containsStr_quoted "Tecla " " no está soportada." k
  · simp [runStep, pressKey, h, throwErr]

/-- Witness for C7, at the key named by the spec scenario: PageDown is
unsupported, the step aborts with the unsupported-key message and the
trace stays empty. -/
theorem C7_pressKey_witness :
    runStep (pressKey sampleEnv "PageDown")
      = (.error (.jsError (unsupportedKeyMsg "PageDown")), ⟨0, []⟩) :=
  (C7_pressKey_supported_keys sampleEnv "PageDown").2.2.2.2.2.2.2.2 (by decide)

/-- The screenshot name the spec describes: the basename with its
extension stripped, that is, with everything from the last dot on
removed when a dot occurs.  Spec-side definition for comparison. -/
def specStripExtension (s : String) : String :=
  if s.data.contains '.' then
    String.mk ((s.data.reverse.dropWhile (fun c => !(c == '.'))).drop 1).reverse
  else s

lemma takeWhile_dot_append (m e : List Char) :
    ((m ++ '.' :: e).takeWhile (fun c => !(c == '.')))
      = m.takeWhile (fun c => !(c == '.')) := by
  induction m with
  | nil => simp [List.takeWhile_cons]
  | cons c cs ih =>
    by_cases hc : c = '.'
    · subst hc
      simp [List.takeWhile_cons]
    · have hc2 : (!(c == '.')) = true := by simp [hc]
      simp only [List.cons_append, List.takeWhile_cons, hc2]
      rw [ih]

lemma exists_dot_split (l : List Char) (hd : '.' ∈ l) :
    ∃ m e, l = m ++ '.' :: e ∧ '.' ∉ m
      ∧ l.dropWhile (fun c => !(c == '.')) = '.' :: e := by
  induction l with
  | nil => simp at hd
  | cons c cs ih =>
    by_cases hc : c = '.'
    · subst hc
      exact ⟨[], cs, rfl, by simp, by simp [List.dropWhile_cons]⟩
    · have hcs : '.' ∈ cs := by
        rcases List.mem_cons.mp hd with h | h
        · exact absurd h.symm hc
        · exact h
      obtain ⟨m, e, h1, h2, h3⟩ := ih hcs
      refine ⟨c :: m, e, by rw [List.cons_append, h1], ?_, ?_⟩
      · intro hin
        rcases List.mem_cons.mp hin with h | h
        · exact hc h.symm
        · exact h2 h
      · have hcb : (!(c == '.')) = true := by simp [hc]
        rw [List.dropWhile_cons, if_pos hcb]
        exact h3

lemma beforeFirstDot_stripExt (s : String) :
    beforeFirstDot s = beforeFirstDot (specStripExtension s) := by
  unfold specStripExtension
  by_cases hd : s.data.contains '.'
  · rw [if_pos hd]
    have hmem : '.' ∈ s.data.reverse := by
      rw [List.mem_reverse]
      simpa using hd
    obtain ⟨m, e, h1, h2, h3⟩ := exists_dot_split s.data.reverse hmem
    have hsdata : s.data = e.reverse ++ '.' :: m.reverse := by
      calc s.data = s.data.reverse.reverse := (List.reverse_reverse s.data).symm
        _ = (m ++ '.' :: e).reverse := by rw [h1]
        _ = ('.' :: e).reverse ++ m.reverse := by rw [List.reverse_append]
        _ = (e.reverse ++ ['.']) ++ m.reverse := by rw [List.reverse_cons]
        _ = e.reverse ++ '.' :: m.reverse := by rw [List.append_assoc]; rfl
    show beforeFirstDot s = beforeFirstDot (String.mk _)
    unfold beforeFirstDot
    rw [h3, List.drop_one]
    show String.mk (s.data.takeWhile _) = String.mk (e.reverse.takeWhile _)
    rw [hsdata, takeWhile_dot_append e.reverse m.reverse]
  · rw [if_neg hd]

/-- A second fixed environment: same version, same scenario basename up
to the extension, but a different directory, extension and driver
behaviour. -/
def sampleEnv2 : Env := { sampleEnv with
  featureLocation := "other/login.txt"
  dirExists := fun _ => false }

/-- Claim C8 (confirmed).  The screenshot path is a pure function of
the VERSION variable and the scenario basename with its extension
stripped: two environments agreeing on those two inputs produce the
same path whatever else differs (first conjunct); an unset VERSION
selects default (second conjunct); the handler trace is the computed
path preceded by a mkdir only when the directory is missing (third
conjunct), so creation is skipped when the directory exists (fourth
conjunct). -/
theorem C8_screenshot_path (env1 env2 : Env) (d : String)
    (hv : env1.versionVar = env2.versionVar)
    (hb : specStripExtension (basenameOf env1.featureLocation)
        = specStripExtension (basenameOf env2.featureLocation)) :
    screenshotPath env1.versionVar env1.featureLocation
      = screenshotPath env2.versionVar env2.featureLocation
    ∧ versionOf none = "default"
    ∧ stepTrace (takeScreenshot env1)
      = (if env1.dirExists
            (dirnameOf (screenshotPath env1.versionVar env1.featureLocation))
          then []
          else [Event.madeDir
            (dirnameOf (screenshotPath env1.versionVar env1.featureLocation))])
        ++ [Event.savedScreenshot (screenshotPath env1.versionVar env1.featureLocation)]
    ∧ (env1.dirExists
          (dirnameOf (screenshotPath env1.versionVar env1.featureLocation)) = true →
        Event.madeDir d ∉ stepTrace (takeScreenshot env1)) := by
  have htr : stepTrace (takeScreenshot env1)
      = (if env1.dirExists
            (dirnameOf (screenshotPath env1.versionVar env1.featureLocation))
          then []
          else [Event.madeDir
            (dirnameOf (screenshotPath env1.versionVar env1.featureLocation))])
        ++ [Event.savedScreenshot (screenshotPath env1.versionVar env1.featureLocation)] := by
    by_cases hdir : env1.dirExists
        (dirnameOf (screenshotPath env1.versionVar env1.featureLocation))
    · simp [stepTrace, takeScreenshot, hdir, bind_run, pure_run, emit]
    · simp [stepTrace, takeScreenshot, hdir, bind_run, pure_run, emit]
  refine ⟨?_, rfl, htr, fun hdir => ?_⟩
  · unfold screenshotPath
    rw [hv, beforeFirstDot_stripExt (basenameOf env1.featureLocation), hb,
      ← beforeFirstDot_stripExt (basenameOf env2.featureLocation)]
  · rw [htr, if_pos hdir]
    simp

/-- Witness for C8: the two sample environments differ in directory,
driver behaviour and the scenario extension, yet produce the same path
screenshots/default/login.png; with the directory present no mkdir is
recorded. -/
theorem C8_screenshot_path_witness :
    screenshotPath sampleEnv.versionVar sampleEnv.featureLocation
      = screenshotPath sampleEnv2.versionVar sampleEnv2.featureLocation
    ∧ screenshotPath sampleEnv.versionVar sampleEnv.featureLocation
      = "screenshots/default/login.png"
    ∧ Event.madeDir "screenshots/default" ∉ stepTrace (takeScreenshot sampleEnv) := by
  have h := C8_screenshot_path sampleEnv sampleEnv2 "screenshots/default" rfl (by decide)
  exact ⟨h.1, by decide, h.2.2.2 (by decide)⟩

/-- Boolean membership in a list of element references. -/
def memb (n : Nat) : List Nat → Bool
  | [] => false
  | m :: ms => n == m || memb n ms

/-- Trace scanner: every click and every direct value assignment must
target an element whose successful displayed wait appears earlier in
the trace. -/
def displayedBeforeActed : List Nat → List Event → Bool
  | _, [] => true
  | ds, ev :: rest =>
    match ev with
    | .waitedDisplayed e _ => displayedBeforeActed (e :: ds) rest
    | .clicked e => memb e ds && displayedBeforeActed ds rest
    | .valueSet e _ => memb e ds && displayedBeforeActed ds rest
    | _ => displayedBeforeActed ds rest

/-- Trace scanner: every click must target an element whose successful
clickable wait appears earlier in the trace. -/
def clickableBeforeClicked : List Nat → List Event → Bool
  | _, [] => true
  | cs, ev :: rest =>
    match ev with
    | .waitedClickable e _ => clickableBeforeClicked (e :: cs) rest
    | .clicked e => memb e cs && clickableBeforeClicked cs rest
    | _ => clickableBeforeClicked cs rest

/-- Claim C2 (corrected).  In every run, on any environment, each
click, clear and enter-text variant except the enter-with-child one
clicks or assigns only elements it first saw pass a displayed wait, and
the three click variants click only elements that also passed a
clickable wait.  The original claim fails for the variant that enters
text into an element in a closest parent with child: it waits for the
base child element to be displayed, then assigns the located input
element directly with no displayed wait on it (see the
counterexample). -/
lemma C2_click_simple (env : Env) (sel : String) :
    displayedBeforeActed [] (stepTrace (clickElement env sel)) = true
    ∧ clickableBeforeClicked [] (stepTrace (clickElement env sel)) = true := by
  by_cases h1 : env.displayed (env.queryEl sel) <;>
    by_cases h2 : env.clickable (env.queryEl sel) <;>
      simp [stepTrace, clickElement, dollar, waitForDisplayed, waitForClickable,
        click, emit, throwErr, bind_run, pure_run, h1, h2, displayedBeforeActed,
        clickableBeforeClicked, memb]

lemma C2_click_parent (env : Env) (sel pSel : String) :
    displayedBeforeActed [] (stepTrace (clickElementInClosestParent env sel pSel)) = true
    ∧ clickableBeforeClicked [] (stepTrace (clickElementInClosestParent env sel pSel)) = true := by
  rcases hp : closest (env.parentChain (env.queryEl sel)) pSel with _ | p
  · simp [stepTrace, clickElementInClosestParent, dollar, assertSome, emit, throwErr,
      bind_run, pure_run, hp, displayedBeforeActed, clickableBeforeClicked]
  · by_cases h1 : env.displayed (env.childEl p.ref sel) <;>
      by_cases h2 : env.clickable (env.childEl p.ref sel) <;>
        simp [stepTrace, clickElementInClosestParent, dollar, childDollar, assertSome,
          waitForDisplayed, waitForClickable, click, emit, throwErr, bind_run,
          pure_run, hp, h1, h2, displayedBeforeActed, clickableBeforeClicked, memb]

lemma C2_click_with_child (env : Env) (sel pSel cSel : String) :
    displayedBeforeActed []
      (stepTrace (clickElementInClosestParentWithChild env sel pSel cSel)) = true
    ∧ clickableBeforeClicked []
      (stepTrace (clickElementInClosestParentWithChild env sel pSel cSel)) = true := by
  by_cases h0 : env.displayed (env.queryEl cSel)
  · rcases hp : closest (env.parentChain (env.queryEl cSel)) pSel with _ | p
    · simp [stepTrace, clickElementInClosestParentWithChild, dollar, assertSome,
        waitForDisplayed, emit, throwErr, bind_run, pure_run, h0, hp,
        displayedBeforeActed, clickableBeforeClicked]
    · rcases hf : find (env.childEls p.ref sel) with _ | e
      · simp [stepTrace, clickElementInClosestParentWithChild, dollar, childDollarAll,
          assertSome, waitForDisplayed, emit, throwErr, bind_run, pure_run, h0, hp,
          hf, displayedBeforeActed, clickableBeforeClicked]
      · by_cases h1 : env.displayed e <;>
          by_cases h2 : env.clickable e <;>
            simp [stepTrace, clickElementInClosestParentWithChild, dollar,
              childDollarAll, assertSome, waitForDisplayed, waitForClickable, click,
              emit, throwErr, bind_run, pure_run, h0, hp, hf, h1, h2,
              displayedBeforeActed, clickableBeforeClicked, memb]
  · simp [stepTrace, clickElementInClosestParentWithChild, dollar, waitForDisplayed,
      emit, throwErr, bind_run, pure_run, h0, displayedBeforeActed,
      clickableBeforeClicked]

lemma C2_clear_simple (env : Env) (sel : String) :
    displayedBeforeActed [] (stepTrace (clearElement env sel)) = true := by
  by_cases h1 : env.displayed (env.queryEl sel) <;>
    simp [stepTrace, clearElement, dollar, waitForDisplayed, click, keysChord,
      keysSend, emit, throwErr, bind_run, pure_run, h1, displayedBeforeActed, memb]

lemma C2_clear_parent (env : Env) (sel pSel : String) :
    displayedBeforeActed [] (stepTrace (clearElementInClosestParent env sel pSel)) = true := by
  rcases hp : closest (env.parentChain (env.queryEl sel)) pSel with _ | p
  · simp [stepTrace, clearElementInClosestParent, dollar, assertSome, emit, throwErr,
      bind_run, pure_run, hp, displayedBeforeActed]
  · by_cases h1 : env.displayed (env.childEl p.ref sel) <;>
      simp [stepTrace, clearElementInClosestParent, dollar, childDollar, assertSome,
        waitForDisplayed, click, keysChord, keysSend, emit, throwErr, bind_run,
        pure_run, hp, h1, displayedBeforeActed, memb]

lemma C2_clear_with_child (env : Env) (sel pSel cSel : String) :
    displayedBeforeActed []
      (stepTrace (clearElementInClosestParentWithChild env sel pSel cSel)) = true := by
  by_cases h0 : env.displayed (env.queryEl cSel)
  · rcases hp : closest (env.parentChain (env.queryEl cSel)) pSel with _ | p
    · simp [stepTrace, clearElementInClosestParentWithChild, dollar, assertSome,
        waitForDisplayed, emit, throwErr, bind_run, pure_run, h0, hp,
        displayedBeforeActed]
    · rcases hf : find (env.childEls p.ref sel) with _ | e
      · simp [stepTrace, clearElementInClosestParentWithChild, dollar, childDollarAll,
          assertSome, waitForDisplayed, emit, throwErr, bind_run, pure_run, h0, hp,
          hf, displayedBeforeActed]
      · by_cases h1 : env.displayed e <;>
          simp [stepTrace, clearElementInClosestParentWithChild, dollar,
            childDollarAll, assertSome, waitForDisplayed, click, keysChord, keysSend,
            emit, throwErr, bind_run, pure_run, h0, hp, hf, h1,
            displayedBeforeActed, memb]
  · simp [stepTrace, clearElementInClosestParentWithChild, dollar, waitForDisplayed,
      emit, throwErr, bind_run, pure_run, h0, displayedBeforeActed]

lemma C2_enter_simple (env : Env) (txt sel : String) :
    displayedBeforeActed [] (stepTrace (enterIntoElement env txt sel)) = true := by
  by_cases h1 : env.displayed (env.queryEl sel) <;>
    simp [stepTrace, enterIntoElement, dollar, waitForDisplayed, click, keysChord,
      keysSend, emit, throwErr, bind_run, pure_run, h1, displayedBeforeActed, memb]

lemma C2_enter_parent (env : Env) (txt sel pSel : String) :
    displayedBeforeActed []
      (stepTrace (enterIntoElementInClosestParent env txt sel pSel)) = true := by
  rcases hp : closest (env.parentChain (env.queryEl sel)) pSel with _ | p
  · simp [stepTrace, enterIntoElementInClosestParent, dollar, assertSome, emit,
      throwErr, bind_run, pure_run, hp, displayedBeforeActed]
  · by_cases h1 : env.displayed (env.childEl p.ref sel) <;>
      simp [stepTrace, enterIntoElementInClosestParent, dollar, childDollar,
        assertSome, waitForDisplayed, click, keysChord, keysSend, emit, throwErr,
        bind_run, pure_run, hp, h1, displayedBeforeActed, memb]

theorem C2_actions_wait_for_display (env : Env) (sel pSel cSel txt : String) :
    displayedBeforeActed [] (stepTrace (clickElement env sel)) = true
    ∧ clickableBeforeClicked [] (stepTrace (clickElement env sel)) = true
    ∧ displayedBeforeActed [] (stepTrace (clickElementInClosestParent env sel pSel)) = true
    ∧ clickableBeforeClicked [] (stepTrace (clickElementInClosestParent env sel pSel)) = true
    ∧ displayedBeforeActed []
        (stepTrace (clickElementInClosestParentWithChild env sel pSel cSel)) = true
    ∧ clickableBeforeClicked []
        (stepTrace (clickElementInClosestParentWithChild env sel pSel cSel)) = true
    ∧ displayedBeforeActed [] (stepTrace (clearElement env sel)) = true
    ∧ displayedBeforeActed [] (stepTrace (clearElementInClosestParent env sel pSel)) = true
    ∧ displayedBeforeActed []
        (stepTrace (clearElementInClosestParentWithChild env sel pSel cSel)) = true
    ∧ displayedBeforeActed [] (stepTrace (enterIntoElement env txt sel)) = true
    ∧ displayedBeforeActed []
        (stepTrace (enterIntoElementInClosestParent env txt sel pSel)) = true :=
  ⟨(C2_click_simple env sel).1, (C2_click_simple env sel).2,
    (C2_click_parent env sel pSel).1, (C2_click_parent env sel pSel).2,
    (C2_click_with_child env sel pSel cSel).1, (C2_click_with_child env sel pSel cSel).2,
    C2_clear_simple env sel, C2_clear_parent env sel pSel,
    C2_clear_with_child env sel pSel cSel, C2_enter_simple env txt sel,
    C2_enter_parent env txt sel pSel⟩

/-- Environment for the C2 counterexample: the base child element 1 is
displayed, its first ancestor 2 carries class card, and the input
element 4 located inside that ancestor is not displayed. -/
def cex2Env : Env := { sampleEnv with
  queryEl := fun _ => 1
  parentChain := fun _ => [Node.mk 2 "div" (some "card"), Node.mk 3 "html" none]
  childEls := fun _ _ => [4]
  displayed := fun e => e == 1 }

/-- Counterexample to C2 as stated: the enter-with-child variant
assigns a value to element 4 although element 4 is not displayed and no
displayed wait for it ever appears in the trace. -/
theorem C2_counterexample :
    cex2Env.displayed 4 = false
    ∧ Event.valueSet 4 "hello"
        ∈ stepTrace
          (enterIntoElementInClosestParentWithChild cex2Env "hello" "#inp" ".card" "#child")
    ∧ displayedBeforeActed []
        (stepTrace
          (enterIntoElementInClosestParentWithChild cex2Env "hello" "#inp" ".card" "#child"))
      = false := by decide

/-- Claim C6 (confirmed).  Every scoped variant — click, clear, enter
and see-text, in both the plain closest-parent and the with-child
forms — aborts with the ancestor-not-found assertion as soon as the
ancestor walk returns null: the recorded trace stops at the initial
query (plus, in the with-child forms, the displayed wait on the base
child), so no scoped lookup and no further document-wide search ever
runs, and the failure message contains both selectors of the pair. -/
theorem C6_ancestor_not_found (env : Env) (sel pSel cSel txt : String)
    (hn : closest (env.parentChain (env.queryEl sel)) pSel = none)
    (hc : closest (env.parentChain (env.queryEl cSel)) pSel = none)
    (hd : env.displayed (env.queryEl cSel) = true) :
    runStep (clickElementInClosestParent env sel pSel)
      = (.error (.assertionFail (ancestorNotFoundMsg pSel sel)), ⟨0, [.queried sel]⟩)
    ∧ runStep (clearElementInClosestParent env sel pSel)
      = (.error (.assertionFail (ancestorNotFoundMsg pSel sel)), ⟨0, [.queried sel]⟩)
    ∧ runStep (enterIntoElementInClosestParent env txt sel pSel)
      = (.error (.assertionFail (ancestorNotFoundMsg pSel sel)), ⟨0, [.queried sel]⟩)
    ∧ runStep (shouldSeeInElementInClosestParent env txt sel pSel)
      = (.error (.assertionFail (ancestorNotFoundMsg pSel sel)), ⟨0, [.queried sel]⟩)
    ∧ runStep (clickElementInClosestParentWithChild env sel pSel cSel)
      = (.error (.assertionFail (ancestorNotFoundMsg pSel cSel)),
          ⟨0, [.queried cSel, .waitedDisplayed (env.queryEl cSel) 10000]⟩)
    ∧ runStep (clearElementInClosestParentWithChild env sel pSel cSel)
      = (.error (.assertionFail (ancestorNotFoundMsg pSel cSel)),
          ⟨0, [.queried cSel, .waitedDisplayed (env.queryEl cSel) 10000]⟩)
    ∧ runStep (enterIntoElementInClosestParentWithChild env txt sel pSel cSel)
      = (.error (.assertionFail (ancestorNotFoundMsg pSel cSel)),
          ⟨0, [.queried cSel, .waitedDisplayed (env.queryEl cSel) 10000]⟩)
    ∧ runStep (shouldSeeInElementInClosestParentWithChild env txt sel pSel cSel)
      = (.error (.assertionFail (ancestorNotFoundMsg pSel cSel)),
          ⟨0, [.queried cSel, .waitedDisplayed (env.queryEl cSel) 10000]⟩)
    ∧ containsStr (ancestorNotFoundMsg pSel sel) pSel = true
    ∧ containsStr (ancestorNotFoundMsg pSel sel) sel = true := by
  refine ⟨?_, ?_, ?_, ?_, ?_, ?_, ?_, ?_, ?_, ?_⟩
  · simp [runStep, clickElementInClosestParent, dollar, assertSome, emit, throwErr,
      bind_run, pure_run, hn]
  · simp [runStep, clearElementInClosestParent, dollar, assertSome, emit, throwErr,
      bind_run, pure_run, hn]
  · simp [runStep, enterIntoElementInClosestParent, dollar, assertSome, emit,
      throwErr, bind_run, pure_run, hn]
  · simp [runStep, shouldSeeInElementInClosestParent, dollar, assertSome, emit,
      throwErr, bind_run, pure_run, hn]
  · simp [runStep, clickElementInClosestParentWithChild, dollar, assertSome,
      waitForDisplayed, emit, throwErr, bind_run, pure_run, hc, hd]
  · simp [runStep, clearElementInClosestParentWithChild, dollar, assertSome,
      waitForDisplayed, emit, throwErr, bind_run, pure_run, hc, hd]
  · simp [runStep, enterIntoElementInClosestParentWithChild, dollar, assertSome,
      waitForDisplayed, emit, throwErr, bind_run, pure_run, hc, hd]
  · simp [runStep, shouldSeeInElementInClosestParentWithChild, dollar, assertSome,
      waitForDisplayed, emit, throwErr, bind_run, pure_run, hc, hd]
  · exact containsStr_left (quoted sel)
      (containsStr_left " desde " (containsStr_quoted_end "No se encontró el padre " pSel))
  · exact containsStr_quoted_end ("No se encontró el padre " ++ quoted pSel ++ " desde ") sel

/-- Witness for C6: with empty ancestor chains, a plain scoped click
and a with-child scoped click both abort on the ancestor assertion
with the untouched prefix trace. -/
theorem C6_ancestor_not_found_witness :
    runStep (clickElementInClosestParent sampleEnv "#x" ".card")
      = (.error (.assertionFail (ancestorNotFoundMsg ".card" "#x")), ⟨0, [.queried "#x"]⟩)
    ∧ runStep (clickElementInClosestParentWithChild sampleEnv "#x" ".card" "#c")
      = (.error (.assertionFail (ancestorNotFoundMsg ".card" "#c")),
          ⟨0, [.queried "#c", .waitedDisplayed 0 10000]⟩) := by
  have h := C6_ancestor_not_found sampleEnv "#x" ".card" "#c" "t" rfl rfl rfl
  exact ⟨h.1, h.2.2.2.2.1⟩

/-- First tick at which a predicate over ticks holds, trying n ticks
from k on; none when no tried tick satisfies it. -/
def scanFirst (p : Nat → Bool) : Nat → Nat → Option Nat
  | 0, _ => none
  | n + 1, k => if p k then some k else scanFirst p n (k + 1)

lemma waitUntilAux_cases (pred : StepM Bool) (p : Nat → Bool) (msg : String)
    (hp : ∀ s : StepState, ∃ tr, pred s = (.ok (p s.tick), ⟨s.tick + 1, tr⟩)) :
    ∀ (n : Nat) (s : StepState),
      (∃ t tr, scanFirst p n s.tick = some t
        ∧ waitUntilAux pred msg n s = (.ok (), ⟨t + 1, tr⟩))
      ∨ (scanFirst p n s.tick = none
        ∧ ∃ tk tr, waitUntilAux pred msg n s = (.error (.timeoutErr msg), ⟨tk, tr⟩)) := by
  intro n
  induction n with
  | zero => exact fun s => .inr ⟨rfl, s.tick, s.trace, rfl⟩
  | succ n ih =>
    intro s
    obtain ⟨tr, he⟩ := hp s
    by_cases hpk : p s.tick
    · refine .inl ⟨s.tick, tr, by simp [scanFirst, hpk], ?_⟩
      show (pred >>= fun b => if b then pure () else waitUntilAux pred msg n) s
        = (.ok (), ⟨s.tick + 1, tr⟩)
      rw [bind_run, he]
      simp [hpk, pure_run]
    · have hnext := ih ⟨s.tick + 1, tr⟩
      have hscan1 : scanFirst p (n + 1) s.tick = scanFirst p n (s.tick + 1) := by
        simp [scanFirst, hpk]
      rcases hnext with ⟨t, tr2, hscan, heq⟩ | ⟨hscan, tk, tr2, heq⟩
      · refine .inl ⟨t, tr2, by rw [hscan1]; exact hscan, ?_⟩
        show (pred >>= fun b => if b then pure () else waitUntilAux pred msg n) s
          = (.ok (), ⟨t + 1, tr2⟩)
        rw [bind_run, he]
        simpa [hpk] using heq
      · refine .inr ⟨by rw [hscan1]; exact hscan, tk, tr2, ?_⟩
        show (pred >>= fun b => if b then pure () else waitUntilAux pred msg n) s
          = (.error (.timeoutErr msg), ⟨tk, tr2⟩)
        rw [bind_run, he]
        simpa [hpk] using heq

lemma shouldBeOnPage_run (env : Env) (u : String) :
    stepResult (shouldBeOnPage env u)
      = match scanFirst (fun t => env.urlAt t == u) env.pollAttempts 0 with
        | none => .error (.timeoutErr (urlTimeoutMsg u))
        | some t =>
          if env.urlAt (t + 1) == u then .ok ()
          else .error (.assertionFail (strictEqualMsg (env.urlAt (t + 1)) u)) := by
  have hp : ∀ s : StepState, ∃ tr,
      (do
        let currentUrl ← getUrl env
        pure (currentUrl == u) : StepM Bool) s
        = (.ok ((fun t => env.urlAt t == u) s.tick), ⟨s.tick + 1, tr⟩) :=
    fun s => ⟨s.trace ++ [Event.readUrl], rfl⟩
  have hc := waitUntilAux_cases _ (fun t => env.urlAt t == u) (urlTimeoutMsg u) hp
    env.pollAttempts ⟨0, []⟩
  unfold stepResult shouldBeOnPage waitUntil
  rcases hc with ⟨t, tr, hscan, heq⟩ | ⟨hscan, tk, tr, heq⟩
  · rw [bind_run, heq]
    simp only []
    rw [show (0 : Nat) = (⟨0, []⟩ : StepState).tick from rfl] at hscan
    rw [hscan]
    simp [getUrl, nextTick, emit, assertOk, throwErr, bind_run, pure_run]
    split <;> rfl
  · rw [bind_run, heq]
    rw [show (0 : Nat) = (⟨0, []⟩ : StepState).tick from rfl] at hscan
    rw [hscan]

lemma shouldSeeInElement_run (env : Env) (xt sel : String) :
    stepResult (shouldSeeInElement env xt sel)
      = match scanFirst (fun t => containsStr (env.textAt (env.queryEl sel) t) xt)
            env.pollAttempts 0 with
        | none => .error (.timeoutErr (textTimeoutMsg xt sel))
        | some t =>
          if containsStr (env.textAt (env.queryEl sel) (t + 1)) xt then .ok ()
          else .error (.assertionFail (textAssertMsg xt)) := by
  have hp : ∀ s : StepState, ∃ tr,
      (do
        let text ← getText env (env.queryEl sel)
        pure (containsStr text xt) : StepM Bool) s
        = (.ok ((fun t => containsStr (env.textAt (env.queryEl sel) t) xt) s.tick),
            ⟨s.tick + 1, tr⟩) :=
    fun s => ⟨s.trace ++ [Event.readText (env.queryEl sel)], rfl⟩
  have hc := waitUntilAux_cases _
    (fun t => containsStr (env.textAt (env.queryEl sel) t) xt)
    (textTimeoutMsg xt sel) hp env.pollAttempts ⟨0, [Event.queried sel]⟩
  simp only [stepResult, shouldSeeInElement, waitUntil, dollar, emit, bind_run,
    pure_run, List.nil_append]
  rcases hc with ⟨t, tr, hscan, heq⟩ | ⟨hscan, tk, tr, heq⟩
  · rw [heq]
    simp only []
    rw [show (0 : Nat) = (⟨0, [Event.queried sel]⟩ : StepState).tick from rfl] at hscan
    rw [hscan]
    simp [getText, nextTick, emit, assertOk, throwErr, bind_run, pure_run]
    split <;> rfl
  · rw [heq]
    rw [show (0 : Nat) = (⟨0, [Event.queried sel]⟩ : StepState).tick from rfl] at hscan
    rw [hscan]

lemma shouldSeeInAttributeOfElement_run (env : Env) (xv an sel : String) :
    stepResult (shouldSeeInAttributeOfElement env xv an sel)
      = match scanFirst
            (fun t => attrTruthyContains (env.attrAt (env.queryEl sel) an t) xv)
            env.pollAttempts 0 with
        | none => .error (.timeoutErr (attrTimeoutMsg xv an sel))
        | some t =>
          match env.attrAt (env.queryEl sel) an (t + 1) with
          | none => .error .typeError
          | some a =>
            if containsStr a xv then .ok ()
            else .error (.assertionFail (attrAssertMsg an xv a)) := by
  have hp : ∀ s : StepState, ∃ tr,
      (do
        let attr ← getAttribute env (env.queryEl sel) an
        pure (attrTruthyContains attr xv) : StepM Bool) s
        = (.ok ((fun t => attrTruthyContains (env.attrAt (env.queryEl sel) an t) xv)
              s.tick),
            ⟨s.tick + 1, tr⟩) :=
    fun s => ⟨s.trace ++ [Event.readAttr (env.queryEl sel) an], rfl⟩
  have hc := waitUntilAux_cases _
    (fun t => attrTruthyContains (env.attrAt (env.queryEl sel) an t) xv)
    (attrTimeoutMsg xv an sel) hp env.pollAttempts ⟨0, [Event.queried sel]⟩
  simp only [stepResult, shouldSeeInAttributeOfElement, waitUntil, dollar, emit,
    bind_run, pure_run, List.nil_append]
  rcases hc with ⟨t, tr, hscan, heq⟩ | ⟨hscan, tk, tr, heq⟩
  · rw [heq]
    simp only []
    rw [show (0 : Nat) = (⟨0, [Event.queried sel]⟩ : StepState).tick from rfl] at hscan
    rw [hscan]
    rcases ha : env.attrAt (env.queryEl sel) an (t + 1) with _ | a <;>
      simp [getAttribute, nextTick, emit, assertOk, throwErr, bind_run, pure_run, ha] <;>
        split <;> rfl
  · rw [heq]
    rw [show (0 : Nat) = (⟨0, [Event.queried sel]⟩ : StepState).tick from rfl] at hscan
    rw [hscan]

lemma shouldSeeInElementInClosestParent_run (env : Env) (xt sel pSel : String)
    (p : Node) (hpar : closest (env.parentChain (env.queryEl sel)) pSel = some p) :
    stepResult (shouldSeeInElementInClosestParent env xt sel pSel)
      = match scanFirst (fun t => containsStr (env.textAt (env.childEl p.ref sel) t) xt)
            env.pollAttempts 0 with
        | none => .error (.timeoutErr (textTimeoutMsg xt sel))
        | some t =>
          if containsStr (env.textAt (env.childEl p.ref sel) (t + 1)) xt then .ok ()
          else .error (.assertionFail (textAssertMsg xt)) := by
  have hp : ∀ s : StepState, ∃ tr,
      (do
        let text ← getText env (env.childEl p.ref sel)
        pure (containsStr text xt) : StepM Bool) s
        = (.ok ((fun t => containsStr (env.textAt (env.childEl p.ref sel) t) xt) s.tick),
            ⟨s.tick + 1, tr⟩) :=
    fun s => ⟨s.trace ++ [Event.readText (env.childEl p.ref sel)], rfl⟩
  have hc := waitUntilAux_cases _
    (fun t => containsStr (env.textAt (env.childEl p.ref sel) t) xt)
    (textTimeoutMsg xt sel) hp env.pollAttempts
    ⟨0, [Event.queried sel, Event.childQueried p.ref sel]⟩
  simp only [stepResult, shouldSeeInElementInClosestParent, waitUntil, dollar,
    childDollar, assertSome, emit, bind_run, pure_run, List.nil_append,
    List.cons_append, hpar]
  rcases hc with ⟨t, tr, hscan, heq⟩ | ⟨hscan, tk, tr, heq⟩
  · rw [heq]
    simp only []
    rw [show (0 : Nat)
        = (⟨0, [Event.queried sel, Event.childQueried p.ref sel]⟩ : StepState).tick
      from rfl] at hscan
    rw [hscan]
    simp [getText, nextTick, emit, assertOk, throwErr, bind_run, pure_run]
    split <;> rfl
  · rw [heq]
    rw [show (0 : Nat)
        = (⟨0, [Event.queried sel, Event.childQueried p.ref sel]⟩ : StepState).tick
      from rfl] at hscan
    rw [hscan]

lemma shouldSeeInElementInClosestParentWithChild_run (env : Env)
    (xt sel pSel cSel : String) (p : Node) (e : Nat)
    (hd : env.displayed (env.queryEl cSel) = true)
    (hpar : closest (env.parentChain (env.queryEl cSel)) pSel = some p)
    (hf : find (env.childEls p.ref sel) = some e) :
    stepResult (shouldSeeInElementInClosestParentWithChild env xt sel pSel cSel)
      = match scanFirst (fun t => containsStr (env.textAt e t) xt)
            env.pollAttempts 0 with
        | none => .error (.timeoutErr (textTimeoutMsg xt sel))
        | some t =>
          if containsStr (env.textAt e (t + 1)) xt then .ok ()
          else .error (.assertionFail (textAssertMsg xt)) := by
  have hp : ∀ s : StepState, ∃ tr,
      (do
        let text ← getText env e
        pure (containsStr text xt) : StepM Bool) s
        = (.ok ((fun t => containsStr (env.textAt e t) xt) s.tick),
            ⟨s.tick + 1, tr⟩) :=
    fun s => ⟨s.trace ++ [Event.readText e], rfl⟩
  have hc := waitUntilAux_cases _
    (fun t => containsStr (env.textAt e t) xt)
    (textTimeoutMsg xt sel) hp env.pollAttempts
    ⟨0, [Event.queried cSel, Event.waitedDisplayed (env.queryEl cSel) 10000,
      Event.childQueriedAll p.ref sel]⟩
  simp only [stepResult, shouldSeeInElementInClosestParentWithChild, waitUntil,
    dollar, childDollarAll, assertSome, waitForDisplayed, emit, throwErr, bind_run,
    pure_run, List.nil_append, List.cons_append, hd, hpar, hf, if_true]
  rcases hc with ⟨t, tr, hscan, heq⟩ | ⟨hscan, tk, tr, heq⟩
  · rw [heq]
    simp only []
    rw [show (0 : Nat)
        = (⟨0, [Event.queried cSel, Event.waitedDisplayed (env.queryEl cSel) 10000,
            Event.childQueriedAll p.ref sel]⟩ : StepState).tick
      from rfl] at hscan
    rw [hscan]
    simp [getText, nextTick, emit, assertOk, throwErr, bind_run, pure_run]
    split <;> rfl
  · rw [heq]
    rw [show (0 : Nat)
        = (⟨0, [Event.queried cSel, Event.waitedDisplayed (env.queryEl cSel) 10000,
            Event.childQueriedAll p.ref sel]⟩ : StepState).tick
      from rfl] at hscan
    rw [hscan]

lemma scanFirst_none {p : Nat → Bool} (h : ∀ t, p t = false) :
    ∀ n k, scanFirst p n k = none := by
  intro n
  induction n with
  | zero => intro k; rfl
  | succ n ih => intro k; simp [scanFirst, h k, ih]

lemma scanFirst_some {p : Nat → Bool} :
    ∀ {n k t}, scanFirst p n k = some t → p t = true := by
  intro n
  induction n with
  | zero => intro k t h; simp [scanFirst] at h
  | succ n ih =>
    intro k t h
    by_cases hk : p k
    · simp [scanFirst, hk] at h
      exact h ▸ hk
    · rw [scanFirst, if_neg hk] at h
      exact ih h

lemma containsStr_right {b x : String} (a : String) (h : containsStr b x = true) :
    containsStr (a ++ b) x = true := by
  unfold containsStr at h ⊢
  rw [String.data_append]
  exact isSubL_append_left _ h

/-- Claim C3 (corrected).  When the polled condition never holds at any
tick, each verification step fails with its configured timeout message.
The URL message names the expected URL and the ten-second duration; the
text message names the expected text and the selector; the attribute
message names the expected value, the attribute and the selector — but
the text and attribute messages do not name the timeout duration (see
the counterexample). -/
theorem C3_poll_timeout_messages (env : Env) (u xt sel xv an asel : String)
    (hu : ∀ t, (env.urlAt t == u) = false)
    (ht : ∀ t, containsStr (env.textAt (env.queryEl sel) t) xt = false)
    (ha : ∀ t, attrTruthyContains (env.attrAt (env.queryEl asel) an t) xv = false) :
    stepResult (shouldBeOnPage env u) = .error (.timeoutErr (urlTimeoutMsg u))
    ∧ stepResult (shouldSeeInElement env xt sel)
      = .error (.timeoutErr (textTimeoutMsg xt sel))
    ∧ stepResult (shouldSeeInAttributeOfElement env xv an asel)
      = .error (.timeoutErr (attrTimeoutMsg xv an asel))
    ∧ containsStr (urlTimeoutMsg u) u = true
    ∧ containsStr (urlTimeoutMsg u) "10 segundos" = true
    ∧ containsStr (textTimeoutMsg xt sel) xt = true
    ∧ containsStr (textTimeoutMsg xt sel) sel = true
    ∧ containsStr (attrTimeoutMsg xv an asel) xv = true
    ∧ containsStr (attrTimeoutMsg xv an asel) an = true
    ∧ containsStr (attrTimeoutMsg xv an asel) asel = true := by
  refine ⟨?_, ?_, ?_, ?_, ?_, ?_, ?_, ?_, ?_, ?_⟩
  · rw [shouldBeOnPage_run, scanFirst_none hu]
  · rw [shouldSeeInElement_run, scanFirst_none ht]
  · rw [shouldSeeInAttributeOfElement_run, scanFirst_none ha]
  · exact containsStr_quoted "La URL no cambió a " " después de 10 segundos" u
  · exact containsStr_right ("La URL no cambió a " ++ quoted u)
      (by decide : containsStr " después de 10 segundos" "10 segundos" = true)
  · exact containsStr_left (quoted sel)
      (containsStr_left " no apareció dentro del elemento "
        (containsStr_quoted_end "El texto " xt))
  · exact containsStr_quoted_end
      ("El texto " ++ quoted xt ++ " no apareció dentro del elemento ") sel
  · exact containsStr_left (quoted asel)
      (containsStr_left " del elemento "
        (containsStr_left (quoted an)
          (containsStr_left " no apareció en el atributo "
            (containsStr_quoted_end "El valor " xv))))
  · exact containsStr_left (quoted asel)
      (containsStr_left " del elemento "
        (containsStr_quoted_end
          ("El valor " ++ quoted xv ++ " no apareció en el atributo ") an))
  · exact containsStr_quoted_end
      ("El valor " ++ quoted xv ++ " no apareció en el atributo " ++ quoted an
        ++ " del elemento ") asel

/-- Witness for C3: with a page whose text stays empty, URL stays
empty and attribute stays null, all three steps time out with their
configured messages. -/
theorem C3_poll_timeout_messages_witness :
    stepResult (shouldBeOnPage sampleEnv "https://x")
      = .error (.timeoutErr (urlTimeoutMsg "https://x"))
    ∧ stepResult (shouldSeeInElement sampleEnv "Saved" "#status")
      = .error (.timeoutErr (textTimeoutMsg "Saved" "#status"))
    ∧ stepResult (shouldSeeInAttributeOfElement sampleEnv "on" "aria-checked" "#c")
      = .error (.timeoutErr (attrTimeoutMsg "on" "aria-checked" "#c")) := by
  have h := C3_poll_timeout_messages sampleEnv "https://x" "Saved" "#status" "on"
    "aria-checked" "#c" (fun t => rfl) (fun t => rfl) (fun t => rfl)
  exact ⟨h.1, h.2.1, h.2.2.1⟩

/-- Counterexample to C3 as stated: the text-step timeout message for
expected text Saved in element selector hash-status names the text and
the selector but contains no digit at all and no occurrence of the
word segundo, so it does not name the 10000 millisecond timeout
duration. -/
theorem C3_counterexample :
    stepResult (shouldSeeInElement sampleEnv "Saved" "#status")
      = .error (.timeoutErr (textTimeoutMsg "Saved" "#status"))
    ∧ (textTimeoutMsg "Saved" "#status").data.all (fun c => !(c.isDigit)) = true
    ∧ containsStr (textTimeoutMsg "Saved" "#status") "10" = false
    ∧ containsStr (textTimeoutMsg "Saved" "#status") "segundo" = false := by decide

/-- Claim C4 (confirmed).  For every verification step — URL, the
three text variants, and the attribute variant — a completed step
requires the re-fetched value, read at the tick after the successful
poll, to satisfy the final comparison (the a-conjuncts: an ok result
implies the final read agreed), and when the poll succeeds but the
re-fetched value disagrees the step fails with the step's own
assertion error, a constructor distinct from the timeout error (the
b-conjuncts).  For the attribute step the disagreeing re-read is a
non-null value that fails containment; a null re-read instead raises
the type error treated in C10. -/
theorem C4_final_recheck (env : Env) (u xt sel pSel cSel xv an asel : String)
    (p p2 : Node) (e : Nat)
    (hpar : closest (env.parentChain (env.queryEl sel)) pSel = some p)
    (hd : env.displayed (env.queryEl cSel) = true)
    (hpar2 : closest (env.parentChain (env.queryEl cSel)) pSel = some p2)
    (hf : find (env.childEls p2.ref sel) = some e) :
    (stepResult (shouldBeOnPage env u) = .ok () →
      ∃ t, scanFirst (fun t2 => env.urlAt t2 == u) env.pollAttempts 0 = some t
        ∧ (env.urlAt (t + 1) == u) = true)
    ∧ (∀ t, scanFirst (fun t2 => env.urlAt t2 == u) env.pollAttempts 0 = some t →
        (env.urlAt (t + 1) == u) = false →
        stepResult (shouldBeOnPage env u)
          = .error (.assertionFail (strictEqualMsg (env.urlAt (t + 1)) u)))
    ∧ (stepResult (shouldSeeInElement env xt sel) = .ok () →
      ∃ t, scanFirst (fun t2 => containsStr (env.textAt (env.queryEl sel) t2) xt)
          env.pollAttempts 0 = some t
        ∧ containsStr (env.textAt (env.queryEl sel) (t + 1)) xt = true)
    ∧ (∀ t, scanFirst (fun t2 => containsStr (env.textAt (env.queryEl sel) t2) xt)
          env.pollAttempts 0 = some t →
        containsStr (env.textAt (env.queryEl sel) (t + 1)) xt = false →
        stepResult (shouldSeeInElement env xt sel)
          = .error (.assertionFail (textAssertMsg xt)))
    ∧ (stepResult (shouldSeeInElementInClosestParent env xt sel pSel) = .ok () →
      ∃ t, scanFirst (fun t2 => containsStr (env.textAt (env.childEl p.ref sel) t2) xt)
          env.pollAttempts 0 = some t
        ∧ containsStr (env.textAt (env.childEl p.ref sel) (t + 1)) xt = true)
    ∧ (∀ t, scanFirst (fun t2 => containsStr (env.textAt (env.childEl p.ref sel) t2) xt)
          env.pollAttempts 0 = some t →
        containsStr (env.textAt (env.childEl p.ref sel) (t + 1)) xt = false →
        stepResult (shouldSeeInElementInClosestParent env xt sel pSel)
          = .error (.assertionFail (textAssertMsg xt)))
    ∧ (stepResult (shouldSeeInElementInClosestParentWithChild env xt sel pSel cSel)
        = .ok () →
      ∃ t, scanFirst (fun t2 => containsStr (env.textAt e t2) xt)
          env.pollAttempts 0 = some t
        ∧ containsStr (env.textAt e (t + 1)) xt = true)
    ∧ (∀ t, scanFirst (fun t2 => containsStr (env.textAt e t2) xt)
          env.pollAttempts 0 = some t →
        containsStr (env.textAt e (t + 1)) xt = false →
        stepResult (shouldSeeInElementInClosestParentWithChild env xt sel pSel cSel)
          = .error (.assertionFail (textAssertMsg xt)))
    ∧ (stepResult (shouldSeeInAttributeOfElement env xv an asel) = .ok () →
      ∃ t, scanFirst
          (fun t2 => attrTruthyContains (env.attrAt (env.queryEl asel) an t2) xv)
          env.pollAttempts 0 = some t
        ∧ ∃ a, env.attrAt (env.queryEl asel) an (t + 1) = some a
          ∧ containsStr a xv = true)
    ∧ (∀ t a, scanFirst
          (fun t2 => attrTruthyContains (env.attrAt (env.queryEl asel) an t2) xv)
          env.pollAttempts 0 = some t →
        env.attrAt (env.queryEl asel) an (t + 1) = some a →
        containsStr a xv = false →
        stepResult (shouldSeeInAttributeOfElement env xv an asel)
          = .error (.assertionFail (attrAssertMsg an xv a))) := by
  refine ⟨?_, ?_, ?_, ?_, ?_, ?_, ?_, ?_, ?_, ?_⟩
  · intro hok
    rw [shouldBeOnPage_run] at hok
    rcases hscan : scanFirst (fun t2 => env.urlAt t2 == u) env.pollAttempts 0 with _ | t
    · rw [hscan] at hok; simp at hok
    · rw [hscan] at hok
      simp only [] at hok
      by_cases hfin : (env.urlAt (t + 1) == u) = true
      · exact ⟨t, rfl, hfin⟩
      · rw [if_neg hfin] at hok; simp at hok
  · intro t hscan hfin
    rw [shouldBeOnPage_run, hscan]
    simp [hfin]
  · intro hok
    rw [shouldSeeInElement_run] at hok
    rcases hscan : scanFirst
        (fun t2 => containsStr (env.textAt (env.queryEl sel) t2) xt)
        env.pollAttempts 0 with _ | t
    · rw [hscan] at hok; simp at hok
    · rw [hscan] at hok
      simp only [] at hok
      by_cases hfin : containsStr (env.textAt (env.queryEl sel) (t + 1)) xt = true
      · exact ⟨t, rfl, hfin⟩
      · rw [if_neg hfin] at hok; simp at hok
  · intro t hscan hfin
    rw [shouldSeeInElement_run, hscan]
    simp [hfin]
  · intro hok
    rw [shouldSeeInElementInClosestParent_run env xt sel pSel p hpar] at hok
    rcases hscan : scanFirst
        (fun t2 => containsStr (env.textAt (env.childEl p.ref sel) t2) xt)
        env.pollAttempts 0 with _ | t
    · rw [hscan] at hok; simp at hok
    · rw [hscan] at hok
      simp only [] at hok
      by_cases hfin : containsStr (env.textAt (env.childEl p.ref sel) (t + 1)) xt = true
      · exact ⟨t, rfl, hfin⟩
      · rw [if_neg hfin] at hok; simp at hok
  · intro t hscan hfin
    rw [shouldSeeInElementInClosestParent_run env xt sel pSel p hpar, hscan]
    simp [hfin]
  · intro hok
    rw [shouldSeeInElementInClosestParentWithChild_run env xt sel pSel cSel p2 e
      hd hpar2 hf] at hok
    rcases hscan : scanFirst (fun t2 => containsStr (env.textAt e t2) xt)
        env.pollAttempts 0 with _ | t
    · rw [hscan] at hok; simp at hok
    · rw [hscan] at hok
      simp only [] at hok
      by_cases hfin : containsStr (env.textAt e (t + 1)) xt = true
      · exact ⟨t, rfl, hfin⟩
      · rw [if_neg hfin] at hok; simp at hok
  · intro t hscan hfin
    rw [shouldSeeInElementInClosestParentWithChild_run env xt sel pSel cSel p2 e
      hd hpar2 hf, hscan]
    simp [hfin]
  · intro hok
    rw [shouldSeeInAttributeOfElement_run] at hok
    rcases hscan : scanFirst
        (fun t2 => attrTruthyContains (env.attrAt (env.queryEl asel) an t2) xv)
        env.pollAttempts 0 with _ | t
    · rw [hscan] at hok; simp at hok
    · rw [hscan] at hok
      simp only [] at hok
      rcases ha : env.attrAt (env.queryEl asel) an (t + 1) with _ | a
      · rw [ha] at hok; simp at hok
      · rw [ha] at hok
        simp only [] at hok
        by_cases hfin : containsStr a xv = true
        · exact ⟨t, rfl, a, ha, hfin⟩
        · rw [if_neg hfin] at hok; simp at hok
  · intro t a hscan ha hfin
    rw [shouldSeeInAttributeOfElement_run, hscan]
    simp only []
    rw [ha]
    simp [hfin]

/-- Environment for the C4 witness: every polled observable matches at
tick zero and regresses at tick one, so every poll succeeds and every
final re-read disagrees. -/
def cex4Env : Env := { sampleEnv with
  queryEl := fun _ => 1
  childEl := fun _ _ => 5
  childEls := fun _ _ => [6]
  parentChain := fun _ => [Node.mk 2 "div" (some "card"), Node.mk 3 "html" none]
  urlAt := fun t => if t = 0 then "https://u" else "https://v"
  textAt := fun _ t => if t = 0 then "Saved" else ""
  attrAt := fun _ _ t => if t = 0 then some "on" else some "off"
  pollAttempts := 3 }

/-- Witness for C4: on the regressing environment the URL, text and
attribute steps all reach a successful poll at tick zero and then fail
on the final re-read with their assertion errors — the poll's success
alone never completes the step. -/
theorem C4_final_recheck_witness :
    stepResult (shouldBeOnPage cex4Env "https://u")
      = .error (.assertionFail (strictEqualMsg "https://v" "https://u"))
    ∧ stepResult (shouldSeeInElement cex4Env "Saved" "#s")
      = .error (.assertionFail (textAssertMsg "Saved"))
    ∧ stepResult (shouldSeeInElementInClosestParent cex4Env "Saved" "#s" ".card")
      = .error (.assertionFail (textAssertMsg "Saved"))
    ∧ stepResult
        (shouldSeeInElementInClosestParentWithChild cex4Env "Saved" "#s" ".card" "#c")
      = .error (.assertionFail (textAssertMsg "Saved"))
    ∧ stepResult (shouldSeeInAttributeOfElement cex4Env "on" "aria-checked" "#a")
      = .error (.assertionFail (attrAssertMsg "aria-checked" "on" "off")) := by
  have h := C4_final_recheck cex4Env "https://u" "Saved" "#s" ".card" "#c" "on"
    "aria-checked" "#a" (Node.mk 2 "div" (some "card")) (Node.mk 2 "div" (some "card"))
    6 (by decide) rfl (by decide) rfl
  exact ⟨h.2.1 0 (by decide) (by decide),
    h.2.2.2.1 0 (by decide) (by decide),
    h.2.2.2.2.2.1 0 (by decide) (by decide),
    h.2.2.2.2.2.2.2.1 0 (by decide) (by decide),
    h.2.2.2.2.2.2.2.2.2 0 "off" (by decide) rfl (by decide)⟩

/-- Environment for the C10 witness: the attribute is on at tick zero
and null from tick one on. -/
def cex10Env : Env := { sampleEnv with
  queryEl := fun _ => 1
  attrAt := fun _ _ t => if t = 0 then some "on" else none
  pollAttempts := 3 }

/-- Claim C10 (confirmed).  In the attribute step the poll predicate is
null-guarded, so a successful poll tick saw a truthy attribute (first
conjunct); but the final re-read has no null guard, so when the
re-fetched attribute is null the step aborts with the type error of
calling includes on null (second conjunct), not with the final
assertion-mismatch error (third conjunct). -/
theorem C10_attr_null_final_typeError (env : Env) (xv an sel : String) (t : Nat)
    (hscan : scanFirst
        (fun t2 => attrTruthyContains (env.attrAt (env.queryEl sel) an t2) xv)
        env.pollAttempts 0 = some t)
    (hnull : env.attrAt (env.queryEl sel) an (t + 1) = none) :
    attrTruthyContains (env.attrAt (env.queryEl sel) an t) xv = true
    ∧ stepResult (shouldSeeInAttributeOfElement env xv an sel) = .error .typeError
    ∧ ∀ m, stepResult (shouldSeeInAttributeOfElement env xv an sel)
        ≠ .error (.assertionFail m) := by
  refine ⟨scanFirst_some hscan, ?_, ?_⟩
  · rw [shouldSeeInAttributeOfElement_run, hscan]
    simp only []
    rw [hnull]
  · intro m
    rw [shouldSeeInAttributeOfElement_run, hscan]
    simp only []
    rw [hnull]
    simp

/-- Witness for C10: the attribute matches at tick zero, is null at
the re-read, and the step ends in the type error. -/
theorem C10_attr_null_final_typeError_witness :
    stepResult (shouldSeeInAttributeOfElement cex10Env "on" "aria-expanded" "#x")
      = .error .typeError :=
  (C10_attr_null_final_typeError cex10Env "on" "aria-expanded" "#x" 0 (by decide)
    rfl).2.1

end Kraken
